import Mathlib

/-!
Verification of the title-classification / lot-extraction / cost-profit engine
of the `my-dashboard` repository (`src/app/page.tsx`, plus the variant sources
`src/unnamed/part_000` and `src/unnamed/part_001`).

The TypeScript source is shallowly embedded:

* JavaScript strings are Lean `String`s / `List Char`; `charCodeAt` is modelled
  through UTF-16 code units computed from the Unicode scalar values.
* JavaScript numbers are modelled exactly as rationals (`ℚ`); `Math.round` is
  `fun q => ⌊q + 1/2⌋` (JavaScript rounds half toward +∞), and the only place
  where double-precision overflow can matter (`Number.isFinite` after parsing a
  digit string) is modelled at the exact `2^1024` threshold.  Double-precision
  rounding error is not modelled: all claims under check concern values far
  inside the exactly-representable range.
* `Date` values are epoch milliseconds (`ℤ`), with the civil-calendar
  conversions spelled out; the embedding uses UTC where the browser would use
  the local time zone (the claims under check are time-zone independent).
* The regular expressions of the source are embedded as explicit scanners that
  reproduce the leftmost-match / greedy-with-backtracking semantics of the
  specific patterns appearing in the source (word boundaries `\b`, `\s*` gaps,
  `\d+(?:\.\d{1,2})?` numerals); each scanner is documented at its definition.
-/

/-! ### JavaScript character classes -/

/-- JavaScript WhiteSpace ∪ LineTerminator (the set matched by `\s`, trimmed by
`String.prototype.trim`, and collapsed by `replace(/\s+/g, " ")`). -/
def isJsSpace (c : Char) : Bool :=
  c = ' ' || c = '\t' || c = '\n' || c = '\r' ||
  c.toNat = 0x0b || c.toNat = 0x0c || c.toNat = 0xa0 || c.toNat = 0xfeff ||
  c.toNat = 0x1680 || (0x2000 ≤ c.toNat && c.toNat ≤ 0x200a) ||
  c.toNat = 0x2028 || c.toNat = 0x2029 || c.toNat = 0x202f ||
  c.toNat = 0x205f || c.toNat = 0x3000

/-- JavaScript `\w` class `[A-Za-z0-9_]`; regex `\b` is a transition between a
`\w` char and a non-`\w` char (or the string edge). -/
def isWordChar (c : Char) : Bool :=
  ('a' ≤ c && c ≤ 'z') || ('A' ≤ c && c ≤ 'Z') || ('0' ≤ c && c ≤ '9') || c = '_'

/-- JavaScript `\d` class `[0-9]`. -/
def isDigitC (c : Char) : Bool := '0' ≤ c && c ≤ '9'

/-! ### `title.replace(/\s+/g, " ").trim()` -/

/-- Collapse every run of JavaScript whitespace to a single `' '`; the Boolean
argument records whether the previous character was whitespace. -/
def collapseWsAux : Bool → List Char → List Char
  | _, [] => []
  | prevSp, c :: cs =>
    if isJsSpace c then
      if prevSp then collapseWsAux true cs else ' ' :: collapseWsAux true cs
    else c :: collapseWsAux false cs

/-- Drop a single leading space (after collapsing, a leading whitespace run is
one `' '`). -/
def dropLeadSpace : List Char → List Char
  | ' ' :: cs => cs
  | cs => cs

/-- Embeds `(title || "").replace(/\s+/g, " ").trim()`, the normalization used
before every pattern match in classification and lot extraction. -/
def normSpace (s : String) : String :=
  ((dropLeadSpace ((dropLeadSpace (collapseWsAux false s.toList).reverse)).reverse)).asString

/-! ### Case-insensitive word / phrase matchers (`\bword\b`, `\bw1\s*w2\b`) -/

/-- Case-insensitive literal match: returns the remaining input after the
literal `w`, or `none`.  Models matching a regex literal under the `i` flag
(ASCII case folding, which covers every literal used by the source). -/
def stripCI : List Char → List Char → Option (List Char)
  | [], s => some s
  | _ :: _, [] => none
  | w :: ws, c :: cs => if c.toLower = w.toLower then stripCI ws cs else none

/-- A `\b` to the left of a word character holds at the string start or after a
non-`\w` character. -/
def boundaryBefore : Option Char → Bool
  | none => true
  | some c => !isWordChar c

/-- A `\b` to the right of a word character holds at the string end or before a
non-`\w` character. -/
def headNotWord : List Char → Bool
  | [] => true
  | c :: _ => !isWordChar c

/-- Scanner for `/\bword\b/i` where `word` consists of `\w` characters: try
every start position left to right, requiring a boundary on both sides. -/
def scanWord (w : List Char) : Option Char → List Char → Bool
  | _, [] => false
  | prev, c :: cs =>
    (boundaryBefore prev &&
      (match stripCI w (c :: cs) with
       | some rest => headNotWord rest
       | none => false)) || scanWord w (some c) cs

/-- Test `/\bword\b/i.test(t)`. -/
def containsWord (t w : String) : Bool := scanWord w.toList none t.toList

/-- Scanner for `/\bw1\s*w2\b/i` (e.g. `master\s*ball`, `tag\s*team`).  `\s*`
is matched greedily; since `w2` starts with a letter, taking the maximal run of
whitespace is complete (shorter matches would leave a whitespace character
where `w2`'s first letter is required). -/
def scanGap (w1 w2 : List Char) : Option Char → List Char → Bool
  | _, [] => false
  | prev, c :: cs =>
    (boundaryBefore prev &&
      (match stripCI w1 (c :: cs) with
       | some rest =>
         (match stripCI w2 (rest.dropWhile isJsSpace) with
          | some rest2 => headNotWord rest2
          | none => false)
       | none => false)) || scanGap w1 w2 (some c) cs

/-- Test `/\bw1\s*w2\b/i.test(t)`. -/
def containsGap (t w1 w2 : String) : Bool := scanGap w1.toList w2.toList none t.toList

/-- The needle is a leading segment of the haystack. -/
def leadsWith : List Char → List Char → Bool
  | [], _ => true
  | _ :: _, [] => false
  | a :: as, b :: bs => a = b && leadsWith as bs

/-- Substring containment, as in `String.prototype.includes`. -/
def containsSub : List Char → List Char → Bool
  | n, [] => n.isEmpty
  | n, c :: cs => leadsWith n (c :: cs) || containsSub n cs

/-! ### Numerals: `Number("digits[.d[d]]")`, `Math.round` -/

/-- Value of a digit string (most significant first). -/
def digitsVal (l : List Char) : ℕ := l.foldl (fun a c => 10 * a + (c.toNat - 48)) 0

/-- Exact value of a matched lot numeral `\d+(?:\.\d{1,2})?`: integer part plus
fraction part over the matching power of ten, assembled as a single exact
fraction (`ip + fp / 10^len = (ip * 10^len + fp) / 10^len`). -/
def parseNumeral (raw : List Char) : ℚ :=
  let ip := raw.takeWhile isDigitC
  let fp := match raw.dropWhile isDigitC with
            | '.' :: f => f
            | _ => []
  mkRat (digitsVal ip * 10 ^ fp.length + digitsVal fp) (10 ^ fp.length)

/-- Embeds `Math.round q`: round half toward positive infinity, i.e. `⌊q + 1/2⌋`,
written on the numerator/denominator so that it evaluates by `decide`
(`⌊q + 1/2⌋ = ⌊(2·num + den) / (2·den)⌋` and flooring a ratio of integers with
positive denominator is `Int.fdiv`); `jround_eq` below certifies the
rewriting. -/
def jround (q : ℚ) : ℤ := Int.fdiv (2 * q.num + q.den) (2 * q.den)

/-- Embeds `Math.round (q * 100)` in the same style; certified by `jround100_eq`. -/
def jround100 (q : ℚ) : ℤ := Int.fdiv (200 * q.num + q.den) (2 * q.den)

/-- The smallest positive value that overflows an IEEE-754 double to infinity
is just below `2^1024`; `Number("...")` on a huge digit string yields
`Infinity`, which `Number.isFinite` rejects.  The embedding models the
threshold exactly at `2^1024`. -/
def dblMax : ℚ := ((2 ^ 1024 : ℕ) : ℚ)

/-! ### The lot regexes of `parseLotCountFromTitle`

First pattern: `/\b(\d+(?:\.\d{1,2})?)\s*lot\b/i`; second pattern:
`/\blot\s*(\d+(?:\.\d{1,2})?)\b/i`.  Group 1 (the numeral) is returned.

The scanners reproduce the backtracking order of the JavaScript engine for
these patterns.  At a given start position the engine takes the maximal run of
digits for `\d+`: giving digits back cannot help, because the character after a
shortened run is a digit, which can start neither the `\.` of the fraction nor
`\s*lot` nor satisfy the trailing `\b`.  The optional fraction `(?:\.\d{1,2})?`
is tried greedily: two fraction digits, then one, then no fraction; each
candidate is listed below in that order and the continuation is tried on each
in turn. -/

/-- Greedy candidate list for `(?:\.\d{1,2})?` applied at `rest`: each entry is
the consumed fraction (including the dot) paired with the remaining input. -/
def fracCands (rest : List Char) : List (List Char × List Char) :=
  match rest with
  | '.' :: d1 :: d2 :: r =>
    if isDigitC d1 && isDigitC d2 then
      [(['.', d1, d2], r), (['.', d1], d2 :: r), ([], rest)]
    else if isDigitC d1 then [(['.', d1], d2 :: r), ([], rest)]
    else [([], rest)]
  | ['.', d1] =>
    if isDigitC d1 then [(['.', d1], []), ([], rest)] else [([], rest)]
  | _ => [([], rest)]

/-- Continuation of pattern 1 after the digits: for each fraction candidate,
match `\s*` (maximal; `lot` starts with a letter), then `lot`, then `\b`. -/
def lot1Cont (ds : List Char) : List (List Char × List Char) → Option (List Char)
  | [] => none
  | (frac, rest) :: more =>
    match stripCI ['l', 'o', 't'] (rest.dropWhile isJsSpace) with
    | some rest2 => if headNotWord rest2 then some (ds ++ frac) else lot1Cont ds more
    | none => lot1Cont ds more

/-- Leftmost match of `/\b(\d+(?:\.\d{1,2})?)\s*lot\b/i`, returning group 1. -/
def scanLot1 : Option Char → List Char → Option (List Char)
  | _, [] => none
  | prev, c :: cs =>
    if boundaryBefore prev && isDigitC c then
      let ds := (c :: cs).takeWhile isDigitC
      let rest := (c :: cs).dropWhile isDigitC
      match lot1Cont ds (fracCands rest) with
      | some raw => some raw
      | none => scanLot1 (some c) cs
    else scanLot1 (some c) cs

/-- Continuation of pattern 2 after the digits: for each fraction candidate,
require the trailing `\b`. -/
def lot2Cont (ds : List Char) : List (List Char × List Char) → Option (List Char)
  | [] => none
  | (frac, rest) :: more =>
    if headNotWord rest then some (ds ++ frac) else lot2Cont ds more

/-- Leftmost match of `/\blot\s*(\d+(?:\.\d{1,2})?)\b/i`, returning group 1. -/
def scanLot2 : Option Char → List Char → Option (List Char)
  | _, [] => none
  | prev, c :: cs =>
    if boundaryBefore prev then
      match stripCI ['l', 'o', 't'] (c :: cs) with
      | some rest =>
        let rest2 := rest.dropWhile isJsSpace
        let ds := rest2.takeWhile isDigitC
        if ds.isEmpty then scanLot2 (some c) cs
        else
          match lot2Cont ds (fracCands (rest2.dropWhile isDigitC)) with
          | some raw => some raw
          | none => scanLot2 (some c) cs
      | none => scanLot2 (some c) cs
    else scanLot2 (some c) cs

/-- The `m` of `parseLotCountFromTitle`: first regex, else the second, on the
normalized title. -/
def lotMatchOf (title : String) : Option (List Char) :=
  let t := (normSpace title).toList
  match scanLot1 none t with
  | some r => some r
  | none => scanLot2 none t

/-- Embeds `parseLotCountFromTitle` (src/app/page.tsx lines 187–204; the
part_000 variant lines 120–137 is textually identical).  `Number.isFinite`
fails only when the parsed value overflows the double range, modelled at the
`2^1024` threshold. -/
def parseLotCountFromTitle (title : String) : ℤ :=
  match lotMatchOf title with
  | none => 1
  | some raw =>
    if ¬(parseNumeral raw < dblMax) ∨ parseNumeral raw ≤ 0 then 1
    else if raw.contains '.' = true ∧ parseNumeral raw < 10 then
      if 10 ≤ jround100 (parseNumeral raw) ∧ jround100 (parseNumeral raw) ≤ 5000 then
        jround100 (parseNumeral raw)
      else jround (parseNumeral raw)
    else jround (parseNumeral raw)

/-! ### The classifier of `src/app/page.tsx` (lines 124–184) -/

/-- Feature `has.kfc`: `/\bkfc\b/i`. -/
def hasKfc (title : String) : Bool := containsWord (normSpace title) "kfc"

/-- Feature `has.sealed`: `/\bsealed\b/i`. -/
def hasSealed (title : String) : Bool := containsWord (normSpace title) "sealed"

/-- Feature `has.tagTeam`: `/\btag\s*team\b/i`. -/
def hasTagTeam (title : String) : Bool := containsGap (normSpace title) "tag" "team"

/-- Feature `has.trainer`: `/\btrainer\b/i || /\bsupporter\b/i || /\bitem\b/i`. -/
def hasTrainer (title : String) : Bool :=
  containsWord (normSpace title) "trainer" || containsWord (normSpace title) "supporter" ||
  containsWord (normSpace title) "item"

/-- Feature `has.ocd`: `/\bocd\b/i`. -/
def hasOcd (title : String) : Bool := containsWord (normSpace title) "ocd"

/-- Feature `has.masterBall`: `/\bmaster\s*ball\b/i`. -/
def hasMasterBall (title : String) : Bool := containsGap (normSpace title) "master" "ball"

/-- Feature `has.logoReverse`: `/\blogo\b/i && /\breverse\b/i`. -/
def hasLogoReverse (title : String) : Bool :=
  containsWord (normSpace title) "logo" && containsWord (normSpace title) "reverse"

/-- Feature `has.ballHolo`: `/\bball\b/i && /\bholo\b/i`. -/
def hasBallHolo (title : String) : Bool :=
  containsWord (normSpace title) "ball" && containsWord (normSpace title) "holo"

/-- Feature `has.mix`: `/\bmix\b/i`. -/
def hasMix (title : String) : Bool := containsWord (normSpace title) "mix"

/-- Feature `has.ar`: `/\bar\b/i`. -/
def hasAR (title : String) : Bool := containsWord (normSpace title) "ar"

/-- Feature `has.chr`: `/\bchr\b/i`. -/
def hasCHR (title : String) : Bool := containsWord (normSpace title) "chr"

/-- Feature `has.sr`: `/\bsr\b/i`. -/
def hasSR (title : String) : Bool := containsWord (normSpace title) "sr"

/-- Feature `has.hr`: `/\bhr\b/i`. -/
def hasHR (title : String) : Bool := containsWord (normSpace title) "hr"

/-- Feature `has.rrr`: `/\brrr\b/i`. -/
def hasRRR (title : String) : Bool := containsWord (normSpace title) "rrr"

/-- Feature `has.rr`: `/\brr\b/i`. -/
def hasRR (title : String) : Bool := containsWord (normSpace title) "rr"

/-- Feature `has.vmax`: `/\bvmax\b/i`. -/
def hasVMAX (title : String) : Bool := containsWord (normSpace title) "vmax"

/-- Feature `has.japanese`: `/\bjapanese\b/i`. -/
def hasJapanese (title : String) : Bool := containsWord (normSpace title) "japanese"

/-- Feature `has.otherRarity`: disjunction of nine rarity-marker word tests. -/
def hasOtherRarity (title : String) : Bool :=
  containsWord (normSpace title) "rrrr" || containsWord (normSpace title) "ur" ||
  containsWord (normSpace title) "ssr" || containsWord (normSpace title) "sar" ||
  containsWord (normSpace title) "csr" || containsWord (normSpace title) "ace" ||
  containsWord (normSpace title) "ex" || containsWord (normSpace title) "gold" ||
  containsWord (normSpace title) "secret"

/-- The ordered rule array of `classifyTitleGroup` (src/app/page.tsx), as
`(name, test-result)` pairs in source order. -/
def classifyRules (title : String) : List (String × Bool) :=
  [("KFC Pack", hasKfc title),
   ("Sealed", hasSealed title),
   ("TAG TEAM", hasTagTeam title),
   ("Trainer Item / Supporter", hasTrainer title),
   ("OCD", hasOcd title),
   ("Master Ball", hasMasterBall title),
   ("Logo Reverse Holo", hasLogoReverse title),
   ("Ball Holo", hasBallHolo title),
   ("Mix", hasMix title),
   ("AR/CHR", hasAR title || hasCHR title),
   ("SR/HR", (hasSR title || hasHR title) && !hasOcd title),
   ("Japanese", hasJapanese title),
   ("RRR+VMAX", hasRRR title && hasVMAX title && !hasRR title && !hasOtherRarity title),
   ("RR+RRR", hasRR title && hasRRR title && !hasOtherRarity title),
   ("RR Only", hasRR title && !hasRRR title && !hasOtherRarity title)]

/-- The `for (const r of rules) if (r.test(t)) return r.name; return "Other"`
loop: first matching rule wins. -/
def firstRule : List (String × Bool) → String
  | [] => "Other"
  | (n, b) :: rest => if b then n else firstRule rest

/-- Embeds `classifyTitleGroup` of src/app/page.tsx lines 124–184. -/
def classifyTitleGroup (title : String) : String := firstRule (classifyRules title)

/-- Normalized case-insensitive phrase containment, used to state C1 exactly as
written ("the normalized text contains the phrase"). -/
def containsPhrase (title phrase : String) : Bool :=
  containsSub ((normSpace phrase).toList.map Char.toLower)
    ((normSpace title).toList.map Char.toLower)

/-! ### The built-in default cost table of `src/app/page.tsx` (lines 73–98)

Decimal constants are written as exact fractions: `0.2 = mkRat 1 5`,
`0.5 = mkRat 1 2`, `0.7 = mkRat 7 10`, `0.4 = mkRat 2 5`, `0.6 = mkRat 3 5`. -/

def COST_DEFAULTS : List (String × ℚ) :=
  [("AR/CHR", 2),
   ("Ball Holo", mkRat 1 5),
   ("Japanese", mkRat 1 2),
   ("KFC Pack", 3),
   ("Logo Reverse Holo", 1),
   ("Master Ball", mkRat 7 10),
   ("Mix", mkRat 1 5),
   ("OCD", 14),
   ("RR Only", mkRat 2 5),
   ("RR+RRR", mkRat 3 5),
   ("RRR+VMAX", mkRat 7 10),
   ("SR/HR", 3),
   ("Sealed", 0),
   ("TAG TEAM", 0),
   ("Trainer Item / Supporter", 0),
   ("V/VMAX/VSTAR", 0),
   ("VSTAR Universe", 0),
   ("VSTAR Universe (Sealed)", 0),
   ("VSTAR Universe (Singles)", 0),
   ("VSTAR Universe (Lots)", 0),
   ("VSTAR Universe (Master Ball)", mkRat 7 10),
   ("VSTAR Universe (AR/CHR)", 2),
   ("VSTAR Universe (SR/HR)", 3),
   ("Other", 0)]

/-! ### `hashStr` and `rowId` (src/app/page.tsx lines 104–119)

`hashStr` is an FNV-1a-style hash over the UTF-16 code units of the string:
`h` starts at 2166136261, each unit is xor-ed in, and `h` is multiplied with
`Math.imul` by 16777619.  `Math.imul` is multiplication modulo `2^32` on the
bit pattern, and the `^` operator acts on the same 32-bit pattern, so carrying
`h` as a natural number below `2^32` is exact; the final `h >>> 0` reads that
pattern back as the unsigned value. -/

/-- UTF-16 code units of a string (astral characters become surrogate pairs),
i.e. the sequence of `charCodeAt` values. -/
def utf16Units (s : String) : List ℕ :=
  s.toList.foldr
    (fun c acc =>
      if c.toNat < 0x10000 then c.toNat :: acc
      else (0xd800 + (c.toNat - 0x10000) / 0x400) ::
           (0xdc00 + (c.toNat - 0x10000) % 0x400) :: acc)
    []

/-- One loop iteration of `hashStr`: `h ^= code; h = Math.imul(h, 16777619)`. -/
def hashStep (h u : ℕ) : ℕ := ((h ^^^ u) * 16777619) % 4294967296

/-- Base-36 digit character (`0`–`9`, `a`–`z`), as used by `toString(36)`. -/
def digit36 (d : ℕ) : Char := if d < 10 then Char.ofNat (48 + d) else Char.ofNat (87 + d)

/-- Base-36 digit expansion with explicit fuel (the value strictly shrinks at
each division by 36, so fuel `n + 1` always suffices). -/
def toB36Aux : ℕ → ℕ → List Char
  | 0, _ => []
  | fuel + 1, n => if n < 36 then [digit36 n] else toB36Aux fuel (n / 36) ++ [digit36 (n % 36)]

/-- Embeds `n.toString(36)` for an unsigned 32-bit value. -/
def toBase36 (n : ℕ) : String := (toB36Aux (n + 1) n).asString

/-- Embeds `hashStr` of src/app/page.tsx lines 104–111. -/
def hashStr (s : String) : String :=
  toBase36 ((utf16Units s).foldl hashStep 2166136261)

/-! ### Calendar arithmetic: `Date` as epoch milliseconds

The Gregorian computations below are the standard days-from-civil /
civil-from-days algorithms over `Int.fdiv` (floor division).  The embedding
places all dates in UTC where the browser would use the local zone; every
claim under check is invariant under that shift. -/

/-- Day number (days since 1970-01-01) of the civil date `(y, m, d)` with
`m ∈ 1..12`; linear in `d`, so out-of-range day values roll over exactly as
the `MakeDay` operation of a JavaScript `Date` does. -/
def daysFromCivil (y m d : ℤ) : ℤ :=
  let y2 := if m ≤ 2 then y - 1 else y
  let era := Int.fdiv y2 400
  let yoe := y2 - era * 400
  let doy := Int.fdiv (153 * (if m ≤ 2 then m + 9 else m - 3) + 2) 5 + d - 1
  let doe := yoe * 365 + Int.fdiv yoe 4 - Int.fdiv yoe 100 + doy
  era * 146097 + doe - 719468

/-- Civil date `(y, m, d)` of a day number. -/
def civilFromDays (z : ℤ) : ℤ × ℤ × ℤ :=
  let z2 := z + 719468
  let era := Int.fdiv z2 146097
  let doe := z2 - era * 146097
  let yoe := Int.fdiv (doe - Int.fdiv doe 1460 + Int.fdiv doe 36524 - Int.fdiv doe 146096) 365
  let y := yoe + era * 400
  let doy := doe - (365 * yoe + Int.fdiv yoe 4 - Int.fdiv yoe 100)
  let mp := Int.fdiv (5 * doy + 2) 153
  let d := doy - Int.fdiv (153 * mp + 2) 5 + 1
  let m := if mp < 10 then mp + 3 else mp - 9
  (if m ≤ 2 then y + 1 else y, m, d)

/-- Decimal digits of a nonnegative integer, zero-padded to width `w`. -/
def padNum (w : ℕ) (n : ℤ) : String :=
  let s := Nat.repr n.toNat
  (String.mk (List.replicate (w - s.length) '0')) ++ s

/-- Embeds `Date.prototype.toISOString`: `YYYY-MM-DDTHH:mm:ss.sssZ`, with the
six-digit expanded year form outside `0..9999`. -/
def toISOString (ms : ℤ) : String :=
  let days := Int.fdiv ms 86400000
  let rem := ms - days * 86400000
  let ymd := civilFromDays days
  let y := ymd.1
  let yearTxt :=
    if 0 ≤ y ∧ y ≤ 9999 then padNum 4 y
    else if y < 0 then "-" ++ padNum 6 (-y) else "+" ++ padNum 6 y
  yearTxt ++ "-" ++ padNum 2 ymd.2.1 ++ "-" ++ padNum 2 ymd.2.2 ++
    "T" ++ padNum 2 (Int.fdiv rem 3600000) ++ ":" ++ padNum 2 (Int.fdiv rem 60000 % 60) ++
    ":" ++ padNum 2 (Int.fdiv rem 1000 % 60) ++ "." ++ padNum 3 (rem % 1000) ++ "Z"

/-! ### The `Row` record and the stable row identifier -/

/-- One normalized order line (the `Row` type of the source).  Monetary and
quantity fields are exact rationals; timestamps are epoch milliseconds. -/
structure Row where
  sku : String
  name : String
  category : String
  payoutStatus : String
  soldQty : ℚ
  gmvUsd : ℚ
  payoutCny : ℚ
  paidAt : Option ℤ
  payoutAt : Option ℤ
  titleGroup : String

/-- Embeds `r.paidAt ? r.paidAt.toISOString() : ""` — the empty string stands for a
missing timestamp. -/
def isoOpt : Option ℤ → String
  | none => ""
  | some ms => toISOString ms

/-- Embeds `rowId` (src/app/page.tsx lines 113–119): hash of
`sku|name|paidISO|payoutISO`.  On strings, `x || ""` is the identity (only the
empty string is falsy), so the `|| ""` guards of the source disappear. -/
def rowId (r : Row) : String :=
  hashStr (String.intercalate "|" [r.sku, r.name, isoOpt r.paidAt, isoOpt r.payoutAt])

/-! ### Cost / profit model (src/app/page.tsx lines 1281–1294)

In the source the two cost tables are component state closed over by the
calculator functions; the embedding passes them as explicit parameters.  A
table maps a key to `none` (key absent — `table[k]` is `undefined`) or to a
stored JavaScript number, which may be non-finite. -/

/-- A stored JavaScript number: either a finite value or a non-finite one
(`NaN` / `±Infinity`), which `Number.isFinite` rejects. -/
inductive JsNum where
  | num : ℚ → JsNum
  | nonfinite : JsNum
deriving DecidableEq

/-- Embeds `Number.isFinite v` for a possibly-absent stored value. -/
def jsFinite : Option JsNum → Bool
  | some (JsNum.num _) => true
  | _ => false

/-- Embeds `Number(v)` as read under an `isFinite` guard (only ever consulted when
the guard holds). -/
def jsValOf : Option JsNum → ℚ
  | some (JsNum.num q) => q
  | _ => 0

/-- Embeds `costPerLotOfGroup`: the category default, 0 when the category is
absent or its stored value is non-finite. -/
def costPerLotOfGroup (cm : String → Option JsNum) (g : String) : ℚ :=
  if jsFinite (cm g) then jsValOf (cm g) else 0

/-- Embeds `costPerLotForRow`: the per-row override when present and finite,
else the category default of the row's title group. -/
def costPerLotForRow (cm ov : String → Option JsNum) (r : Row) : ℚ :=
  if jsFinite (ov (rowId r)) then jsValOf (ov (rowId r)) else costPerLotOfGroup cm r.titleGroup

/-- Embeds `lotCountOf`. -/
def lotCountOf (r : Row) : ℤ := parseLotCountFromTitle r.name

/-- Embeds `totalCostOf`. -/
def totalCostOf (cm ov : String → Option JsNum) (r : Row) : ℚ :=
  costPerLotForRow cm ov r * (lotCountOf r : ℚ)

/-- Embeds `totalCostOfDefault`. -/
def totalCostOfDefault (cm : String → Option JsNum) (r : Row) : ℚ :=
  costPerLotOfGroup cm r.titleGroup * (lotCountOf r : ℚ)

/-- Embeds `profitOf`: `r.payoutCny ? r.payoutCny - totalCostOf(r) : 0`
(zero is the only falsy rational). -/
def profitOf (cm ov : String → Option JsNum) (r : Row) : ℚ :=
  if r.payoutCny ≠ 0 then r.payoutCny - totalCostOf cm ov r else 0

/-- Embeds `profitOfDefault`. -/
def profitOfDefault (cm : String → Option JsNum) (r : Row) : ℚ :=
  if r.payoutCny ≠ 0 then r.payoutCny - totalCostOfDefault cm r else 0

/-! ### `Number(string)` — the StringNumericLiteral grammar

`jsNumber s = some q` means `Number(s)` is the (exactly represented) value
`q`; `none` means `NaN` or `±Infinity` — every caller in the source treats the
two through `Number.isFinite` or truthiness, and the per-case divergence
(truthiness of `Infinity` in `parseYmd`) is noted at that definition.  The
grammar covers the empty string (0), an optional sign with a decimal literal
(`digits [. digits] | . digits`, optional `e`/`E` exponent), `Infinity`, and
unsigned `0x`/`0o`/`0b` radix literals.  Values are exact rationals; IEEE
double rounding is not modelled (no claim under check depends on it), except
that overflow beyond the double range is mapped to non-finite by
`jsFiniteNum`. -/

/-- Embeds `String(v).trim()` — JavaScript whitespace trimming. -/
def jsTrim (s : String) : String :=
  (((s.toList.dropWhile isJsSpace).reverse.dropWhile isJsSpace).reverse).asString

/-- Embeds `s.replace(/,/g, "")`. -/
def stripCommas (s : String) : String := (s.toList.filter (fun c => c ≠ ',')).asString

/-- Mantissa and decimal exponent assembled into an exact rational
`m * 10^e`, using only `mkRat` so that it evaluates by `decide`. -/
def ratPow10 (m : ℤ) (e : ℤ) : ℚ :=
  if 0 ≤ e then mkRat (m * 10 ^ e.toNat) 1 else mkRat m (10 ^ (-e).toNat)

/-- Exponent digits: nonempty, all decimal digits, nothing trailing. -/
def expDigits (ds : List Char) : Option ℤ :=
  if ds ≠ [] ∧ ds.all isDigitC then some (digitsVal ds : ℤ) else none

/-- Optional `e`/`E` exponent ending the literal. -/
def parseExpPart : List Char → Option ℤ
  | [] => some 0
  | c :: rest =>
    if c = 'e' ∨ c = 'E' then
      match rest with
      | '+' :: ds => expDigits ds
      | '-' :: ds => (expDigits ds).map Neg.neg
      | ds => expDigits ds
    else none

/-- Unsigned decimal literal (or `Infinity`, which is non-finite, hence
`none`): returns mantissa and decimal exponent. -/
def parseUnsignedDec (l : List Char) : Option (ℤ × ℤ) :=
  if l = "Infinity".toList then none
  else
    let ip := l.takeWhile isDigitC
    let r1 := l.dropWhile isDigitC
    match r1 with
    | '.' :: r2 =>
      let fp := r2.takeWhile isDigitC
      let r3 := r2.dropWhile isDigitC
      if ip.isEmpty ∧ fp.isEmpty then none
      else (parseExpPart r3).map
        (fun e => ((digitsVal ip * 10 ^ fp.length + digitsVal fp : ℕ), e - fp.length))
    | _ =>
      if ip.isEmpty then none else (parseExpPart r1).map (fun e => ((digitsVal ip : ℕ), e))

/-- Signed decimal literal. -/
def parseSignedDec : List Char → Option ℚ
  | '+' :: rest => (parseUnsignedDec rest).map (fun p => ratPow10 p.1 p.2)
  | '-' :: rest => (parseUnsignedDec rest).map (fun p => ratPow10 (-p.1) p.2)
  | l => (parseUnsignedDec l).map (fun p => ratPow10 p.1 p.2)

/-- Digit value in radix `b` (`a`–`f` accepted for 16), or `none`. -/
def radixDigit (b : ℕ) (c : Char) : Option ℕ :=
  let v :=
    if isDigitC c then some (c.toNat - 48)
    else if 'a' ≤ c ∧ c ≤ 'f' then some (c.toNat - 87)
    else if 'A' ≤ c ∧ c ≤ 'F' then some (c.toNat - 55)
    else none
  match v with
  | some d => if d < b then some d else none
  | none => none

/-- Unsigned radix literal body (after `0x`/`0o`/`0b`): nonempty, all digits
of the radix. -/
def parseRadix (b : ℕ) (l : List Char) : Option ℕ :=
  if l = [] then none
  else l.foldl (fun acc c => acc.bind (fun a => (radixDigit b c).map (fun d => b * a + d)))
    (some 0)

/-- Embeds `Number(s)` on a string. -/
def jsNumber (s : String) : Option ℚ :=
  match (jsTrim s).toList with
  | [] => some 0
  | '0' :: c :: rest =>
    if c = 'x' ∨ c = 'X' then (parseRadix 16 rest).map (fun n => mkRat n 1)
    else if c = 'o' ∨ c = 'O' then (parseRadix 8 rest).map (fun n => mkRat n 1)
    else if c = 'b' ∨ c = 'B' then (parseRadix 2 rest).map (fun n => mkRat n 1)
    else parseSignedDec ('0' :: c :: rest)
  | l => parseSignedDec l

/-- Embeds `Number.isFinite` applied to a parse result: values beyond the double
range overflow to `±Infinity` (threshold modelled exactly at `2^1024`). -/
def jsFiniteNum (o : Option ℚ) : Option ℚ :=
  match o with
  | some q => if -dblMax < q ∧ q < dblMax then some q else none
  | none => none

/-! ### `toNumber`, both variants -/

/-- A raw spreadsheet cell as seen by `toNumber(v: any)`: a number, a string,
`null`, or `undefined`. -/
inductive JsCell where
  | num : JsNum → JsCell
  | str : String → JsCell
  | nullv : JsCell
  | undef : JsCell

/-- Embeds `toNumber` of src/app/page.tsx lines 228–235 (and the identical
src/unnamed/part_001 lines 237–244): `null`/`undefined` ↦ 0; a number kept if
finite; a string trimmed, stripped of commas, and parsed, with empty or
unparsable strings resolving to 0. -/
def toNumber : JsCell → ℚ
  | JsCell.nullv => 0
  | JsCell.undef => 0
  | JsCell.num (JsNum.num q) => q
  | JsCell.num JsNum.nonfinite => 0
  | JsCell.str s =>
    let s2 := stripCommas (jsTrim s)
    if s2 = "" then 0
    else
      match jsFiniteNum (jsNumber s2) with
      | some q => q
      | none => 0

/-- Embeds the `toNumber` variant of src/unnamed/part_000 lines 188–194: the
empty string is rejected up front, commas are stripped, and then every
character other than a digit, a dot, or a hyphen is removed
(`replace(/[^\d.-]/g, "")`) before parsing. -/
def toNumberP0 : JsCell → ℚ
  | JsCell.nullv => 0
  | JsCell.undef => 0
  | JsCell.num (JsNum.num q) => q
  | JsCell.num JsNum.nonfinite => 0
  | JsCell.str s =>
    if s = "" then 0
    else
      let s2 := ((stripCommas s).toList.filter
        (fun c => isDigitC c || c = '.' || c = '-')).asString
      match jsFiniteNum (jsNumber s2) with
      | some q => q
      | none => 0

/-! ### `median` and `percentile` (src/app/page.tsx lines 332–344) -/

/-- The ascending numeric sort `[...arr].sort((x, y) => x - y)`.  An ascending
rearrangement of a multiset of rationals is unique, so insertion sort
reproduces the result of the engine's sort exactly. -/
def sortNum (arr : List ℚ) : List ℚ := arr.insertionSort (· ≤ ·)

/-- Embeds `median`: 0 on the empty list; middle element of the sorted list
for odd length, mean of the two middle elements for even length. -/
def medianQ (arr : List ℚ) : ℚ :=
  if arr.isEmpty then 0
  else
    let a := sortNum arr
    let mid := a.length / 2
    if a.length % 2 = 0 then (a.getD (mid - 1) 0 + a.getD mid 0) / 2
    else a.getD mid 0

/-- Embeds `Math.floor (k * p)` for an integer `k` and rational `p`, written on the
numerator/denominator so that it evaluates by `decide`; certified by
`floorMul_eq` below. -/
def floorMul (k : ℤ) (p : ℚ) : ℤ := Int.fdiv (k * p.num) p.den

/-- Embeds `percentile`: 0 on the empty list; otherwise the sorted list at
index `min (len-1) (max 0 ⌊(len-1)·p⌋)`. -/
def percentileQ (arr : List ℚ) (p : ℚ) : ℚ :=
  if arr.isEmpty then 0
  else
    let a := sortNum arr
    let idx := min ((a.length : ℤ) - 1) (max 0 (floorMul ((a.length : ℤ) - 1) p))
    a.getD idx.toNat 0

/-- Computes `⌈k * p⌉` in the same `decide`-friendly style (`⌈x⌉ = -⌊-x⌋`); certified
by `ceilMul_eq` below. -/
def ceilMul (k : ℤ) (p : ℚ) : ℤ := -Int.fdiv (-(k * p.num)) p.den

/-- Modelled from the spec: "percentiles via nearest-rank".  The nearest-rank
percentile is the element of the ascending-sorted list at rank `⌈p · n⌉`
(1-indexed, with rank at least 1), the standard nearest-rank definition.
Stated only to compare the source's `percentile` against the spec's words. -/
def nearestRankPercentile (arr : List ℚ) (p : ℚ) : ℚ :=
  let a := sortNum arr
  let rank := max 1 (ceilMul (a.length : ℤ) p)
  a.getD (rank - 1).toNat 0

/-! ### `parseYmd`, `endOfDay`, `filterByDate` (src/app/page.tsx 258–285) -/

/-- Embeds `s.split("-")` for the one-character separator. -/
def splitDashAux : List Char → List Char → List String
  | acc, [] => [acc.reverse.asString]
  | acc, c :: cs => if c = '-' then acc.reverse.asString :: splitDashAux [] cs
                    else splitDashAux (c :: acc) cs

/-- Embeds `ymd.split("-")`. -/
def splitDash (s : String) : List String := splitDashAux [] s.toList

/-- Truncation toward zero, as the `ToIntegerOrInfinity` step of `MakeDay`
performs on each `Date` constructor argument. -/
def jsTrunc (q : ℚ) : ℤ := Int.tdiv q.num q.den

/-- Truncation toward zero of `q - 1` (the `m - 1` of `new Date(y, m - 1, d)`),
computed on the numerator/denominator: `q - 1 = (num - den) / den` and
truncating a ratio with positive denominator is `Int.tdiv`, which is
insensitive to the fraction being in lowest terms. -/
def jsTruncPred (q : ℚ) : ℤ := Int.tdiv (q.num - q.den) q.den

/-- Embeds `new Date(y, m, d)` (month 0-based) as epoch milliseconds: two-digit years
map to 19xx, the month rolls over into the year, and the day offset rolls over
through `daysFromCivil` being linear in its day argument.  Local midnight is
modelled as UTC midnight. -/
def mkDateMs (y m d : ℤ) : ℤ :=
  let yy := if 0 ≤ y ∧ y ≤ 99 then y + 1900 else y
  (daysFromCivil (yy + Int.fdiv m 12) (Int.fmod m 12 + 1) d) * 86400000

/-- Component `i` of the split, parsed by `Number`; `none` covers both a
missing component (`undefined`) and `NaN`, which are equally falsy. -/
def ymdComp (parts : List String) (i : ℕ) : Option ℚ :=
  ((parts.get? i).map jsNumber).bind id

/-- Embeds `parseYmd`: split on `-`, convert the first three components with
`Number`, fail on any falsy component, and build the local-midnight date.
An infinite component (e.g. `"Infinity-1-1"`), truthy in the source but
producing an invalid date whose comparisons are all false, is mapped to
`none` here; no claim under check involves such a string. -/
def parseYmd (ymd : String) : Option ℤ :=
  if ymd = "" then none
  else
    let parts := splitDash ymd
    match ymdComp parts 0, ymdComp parts 1, ymdComp parts 2 with
    | some qy, some qm, some qd =>
      if qy = 0 ∨ qm = 0 ∨ qd = 0 then none
      else some (mkDateMs (jsTrunc qy) (jsTruncPred qm) (jsTrunc qd))
    | _, _, _ => none

/-- Embeds `endOfDay` applied to a date value: last millisecond of its civil day. -/
def endOfDayMs (ms : ℤ) : ℤ := Int.fdiv ms 86400000 * 86400000 + 86399999

/-- Embeds `filterByDate` (src/app/page.tsx lines 273–285): rows with a
missing date are excluded once either bound is set; both bounds inclusive,
the end bound extended to end of day.  The source applies `endOfDay` to
`parseYmd(endYmd)!` under a non-null assertion; a non-empty unparsable end
string would throw there and is modelled as an absent bound. -/
def filterByDate (input : List Row) (getDt : Row → Option ℤ) (startYmd endYmd : String) :
    List Row :=
  let start := parseYmd startYmd
  let endB := if endYmd = "" then none else (parseYmd endYmd).map endOfDayMs
  if start = none ∧ endB = none then input
  else
    input.filter fun r =>
      match getDt r with
      | none => false
      | some dt =>
        (match start with
         | none => true
         | some s0 => decide (s0 ≤ dt)) &&
        (match endB with
         | none => true
         | some e0 => decide (dt ≤ e0))

/-! ### Filter state and the KPI aggregates (src/app/page.tsx 1344–1397) -/

/-- The filter fields consumed by the derived views: the shared status /
category / group / free-text filters and the two independent date ranges. -/
structure Filters where
  status : String
  category : String
  group : String
  q : String
  paidStartYmd : String
  paidEndYmd : String
  payoutStartYmd : String
  payoutEndYmd : String

/-- Embeds `s.toLowerCase()` (ASCII folding, which covers the source's data). -/
def strLower (s : String) : String := (s.toList.map Char.toLower).asString

/-- Embeds `x || d` on strings: only the empty string is falsy. -/
def strOr (s d : String) : String := if s = "" then d else s

/-- Embeds the `baseRows` filter (status, category, title group, and a
case-insensitive SKU/name substring query; no dates). -/
def baseRows (rows : List Row) (f : Filters) : List Row :=
  let qq := strLower (jsTrim f.q)
  rows.filter fun r =>
    (f.status = "全部" || strOr r.payoutStatus "未知" = f.status) &&
    (f.category = "全部" || r.category = f.category) &&
    (f.group = "全部" || strOr r.titleGroup "Other" = f.group) &&
    (qq = "" ||
      containsSub qq.toList (strLower r.sku).toList ||
      containsSub qq.toList (strLower r.name).toList)

/-- Embeds `paidRows`: the base rows filtered by the paid-date range only. -/
def paidRows (rows : List Row) (f : Filters) : List Row :=
  filterByDate (baseRows rows f) Row.paidAt f.paidStartYmd f.paidEndYmd

/-- Embeds `payoutRows`: the base rows filtered by the payout-date range
only. -/
def payoutRows (rows : List Row) (f : Filters) : List Row :=
  filterByDate (baseRows rows f) Row.payoutAt f.payoutStartYmd f.payoutEndYmd

/-- Embeds `listRows`: both date ranges applied in sequence. -/
def listRows (rows : List Row) (f : Filters) : List Row :=
  filterByDate (filterByDate (baseRows rows f) Row.paidAt f.paidStartYmd f.paidEndYmd)
    Row.payoutAt f.payoutStartYmd f.payoutEndYmd

/-- The KPI block computed by the main page. -/
structure Kpi where
  baseCount : ℕ
  listCount : ℕ
  gmvUsd : ℚ
  payoutCny : ℚ
  totalCost : ℚ
  totalProfit : ℚ
  margin : ℚ

/-- Embeds the `kpi` memo (src/app/page.tsx lines 1380–1397): GMV summed over
the paid-window rows; payout, cost and profit summed over the payout-window
rows.  On rationals `x || 0` is the identity, so the `(r.gmvUsd || 0)` guards
of the `reduce` calls disappear. -/
def kpi (rows : List Row) (f : Filters) (cm ov : String → Option JsNum) : Kpi :=
  let pr := paidRows rows f
  let yr := payoutRows rows f
  let payoutCny := (yr.map Row.payoutCny).sum
  let totalProfit := (yr.map (profitOf cm ov)).sum
  { baseCount := (baseRows rows f).length
    listCount := (listRows rows f).length
    gmvUsd := (pr.map Row.gmvUsd).sum
    payoutCny := payoutCny
    totalCost := (yr.map (fun r => if r.payoutCny ≠ 0 then totalCostOf cm ov r else 0)).sum
    totalProfit := totalProfit
    margin := if 0 < payoutCny then totalProfit / payoutCny else 0 }

/-! ### Loading the category-cost document -/

/-- Embeds the cost-map state of src/app/page.tsx line 1277 with
`useLocalStorageState` (lines 347–376): the initial value is a copy of
`COST_DEFAULTS`, and when a stored document exists its parse **replaces** the
whole value (`setValue(JSON.parse(raw))` — no merge). -/
def loadCostMapMain (stored : Option (List (String × ℚ))) : List (String × ℚ) :=
  match stored with
  | none => COST_DEFAULTS
  | some doc => doc

/-- Object spread `{...base, ...overlay}`: the base entries first, each
overwritten by the overlay where its key recurs, then the overlay entries with
fresh keys in order. -/
def spreadMerge (base overlay : List (String × ℚ)) : List (String × ℚ) :=
  base.map (fun p => (p.1, (overlay.lookup p.1).getD p.2)) ++
    overlay.filter (fun p => (base.lookup p.1).isNone)

/-- Embeds the cost-map initializer of src/unnamed/part_000 lines 358–365:
`{...COST_DEFAULTS, ...JSON.parse(raw)}` — the stored document is merged over
the built-in defaults. -/
def loadCostMapP0 (stored : Option (List (String × ℚ))) : List (String × ℚ) :=
  match stored with
  | none => COST_DEFAULTS
  | some doc => spreadMerge COST_DEFAULTS doc

/-! ## Sample data for witnesses -/

/-- The cost table holding exactly the built-in defaults (every stored value
finite). -/
def defaultCostFn : String → Option JsNum := fun g => (COST_DEFAULTS.lookup g).map JsNum.num

/-- An empty override table. -/
def noOverrides : String → Option JsNum := fun _ => none

/-- An override table assigning cost 5 to every row id. -/
def allFiveOverride : String → Option JsNum := fun _ => some (JsNum.num 5)

/-- A cost table with no entries at all. -/
def emptyCostFn : String → Option JsNum := fun _ => none

/-- The end-to-end example record of the spec: title "100 Lot Master Ball
Holo", payout 500, title group assigned by the classifier at ingestion. -/
def exampleRow : Row :=
  { sku := "SKU1", name := "100 Lot Master Ball Holo", category := "", payoutStatus := "paid",
    soldQty := 1, gmvUsd := 100, payoutCny := 500, paidAt := none, payoutAt := none,
    titleGroup := classifyTitleGroup "100 Lot Master Ball Holo" }

/-- The zero-payout example record of the spec ("RR Only pack", payout 0). -/
def zeroPayoutRow : Row :=
  { sku := "SKU2", name := "RR Only pack", category := "", payoutStatus := "",
    soldQty := 1, gmvUsd := 50, payoutCny := 0, paidAt := none, payoutAt := none,
    titleGroup := classifyTitleGroup "RR Only pack" }


set_option maxRecDepth 4000

/-! ## Helper lemmas

Certificates for the `decide`-friendly integer renderings of `Math.floor` /
`Math.round`, and small facts about the numeral parser. -/

/-- Certificate for `jround`: it is `⌊q + 1/2⌋`, i.e. `Math.round`. -/
theorem jround_eq (q : ℚ) : jround q = ⌊q + 1 / 2⌋ := by
  have hqd : (q : ℚ) * (q.den : ℚ) = (q.num : ℚ) := Rat.mul_den_eq_num q
  have hd : (0 : ℚ) < (q.den : ℚ) := by exact_mod_cast Rat.den_pos q
  have h1 : q + 1 / 2 = ((2 * q.num + (q.den : ℤ) : ℤ) : ℚ) / ((2 * q.den : ℕ) : ℚ) := by
    rw [eq_div_iff (by positivity)]
    push_cast
    linear_combination 2 * hqd
  simp only [jround]
  rw [h1, Rat.floor_intCast_div_natCast, Int.fdiv_eq_ediv _ (by positivity : (0 : ℤ) ≤ 2 * (q.den : ℤ))]
  norm_cast

/-- Certificate for `jround100`: it is `⌊q * 100 + 1/2⌋`, i.e.
`Math.round (q * 100)`. -/
theorem jround100_eq (q : ℚ) : jround100 q = ⌊q * 100 + 1 / 2⌋ := by
  have hqd : (q : ℚ) * (q.den : ℚ) = (q.num : ℚ) := Rat.mul_den_eq_num q
  have hd : (0 : ℚ) < (q.den : ℚ) := by exact_mod_cast Rat.den_pos q
  have h1 : q * 100 + 1 / 2 = ((200 * q.num + (q.den : ℤ) : ℤ) : ℚ) / ((2 * q.den : ℕ) : ℚ) := by
    rw [eq_div_iff (by positivity)]
    push_cast
    linear_combination 200 * hqd
  simp only [jround100]
  rw [h1, Rat.floor_intCast_div_natCast, Int.fdiv_eq_ediv _ (by positivity : (0 : ℤ) ≤ 2 * (q.den : ℤ))]
  norm_cast

/-- Certificate for `floorMul`: it is `⌊k * p⌋`, i.e. `Math.floor (k * p)`. -/
theorem floorMul_eq (k : ℤ) (p : ℚ) : floorMul k p = ⌊(k : ℚ) * p⌋ := by
  have hqd : (p : ℚ) * (p.den : ℚ) = (p.num : ℚ) := Rat.mul_den_eq_num p
  have hd : (0 : ℚ) < (p.den : ℚ) := by exact_mod_cast Rat.den_pos p
  have h1 : (k : ℚ) * p = ((k * p.num : ℤ) : ℚ) / ((p.den : ℕ) : ℚ) := by
    rw [eq_div_iff (by positivity)]
    push_cast
    linear_combination (k : ℚ) * hqd
  simp only [floorMul]
  rw [h1, Rat.floor_intCast_div_natCast, Int.fdiv_eq_ediv _ (by positivity : (0 : ℤ) ≤ (p.den : ℤ))]

/-- Certificate for `ceilMul`: it is `⌈k * p⌉` (`⌈x⌉ = -⌊-x⌋`). -/
theorem ceilMul_eq (k : ℤ) (p : ℚ) : ceilMul k p = ⌈(k : ℚ) * p⌉ := by
  have hqd : (p : ℚ) * (p.den : ℚ) = (p.num : ℚ) := Rat.mul_den_eq_num p
  have hd : (0 : ℚ) < (p.den : ℚ) := by exact_mod_cast Rat.den_pos p
  have h1 : -((k : ℚ) * p) = ((-(k * p.num) : ℤ) : ℚ) / ((p.den : ℕ) : ℚ) := by
    rw [eq_div_iff (by positivity)]
    push_cast
    linear_combination (-(k : ℚ)) * hqd
  have h2 : ⌈(k : ℚ) * p⌉ = -⌊-((k : ℚ) * p)⌋ := rfl
  simp only [ceilMul]
  rw [h2, h1, Rat.floor_intCast_div_natCast,
    Int.fdiv_eq_ediv _ (by positivity : (0 : ℤ) ≤ (p.den : ℤ))]

/-- The lot numeral parser only produces nonnegative values. -/
theorem parseNumeral_nonneg (raw : List Char) : 0 ≤ parseNumeral raw := by
  unfold parseNumeral
  rw [Rat.mkRat_eq_div]
  positivity

/-- Rounding a nonnegative value with `Math.round` is nonnegative. -/
theorem jround_nonneg (q : ℚ) (h : 0 ≤ q) : 0 ≤ jround q := by
  simp only [jround]
  apply Int.fdiv_nonneg
  · have hnum : 0 ≤ q.num := Rat.num_nonneg.mpr h
    have hden : (0 : ℤ) ≤ (q.den : ℤ) := Int.natCast_nonneg _
    omega
  · positivity

/-- Rounding a value at least 1 with `Math.round` gives at least 1. -/
theorem jround_ge_one (q : ℚ) (h : 1 ≤ q) : 1 ≤ jround q := by
  rw [jround_eq]
  exact Int.le_floor.mpr (by push_cast; linarith)

/-- When the raw numeral has no decimal point, its parsed value is the natural
number given by its digits. -/
theorem parseNumeral_of_no_dot (raw : List Char) (h : '.' ∉ raw) :
    parseNumeral raw = (digitsVal (raw.takeWhile isDigitC) : ℚ) := by
  unfold parseNumeral
  have hfp : (match raw.dropWhile isDigitC with
              | '.' :: f => f
              | _ => []) = ([] : List Char) := by
    split
    · rename_i f heq
      exact absurd ((List.dropWhile_sublist isDigitC).subset
        (heq ▸ List.mem_cons_self '.' f)) h
    · rfl
  rw [hfp]
  simp [Rat.mkRat_eq_div, digitsVal]

/-- Generic first-match lemma: the result of the rule loop is either the
fallback or the name of some rule in the list. -/
theorem firstRule_mem (l : List (String × Bool)) :
    firstRule l = "Other" ∨ firstRule l ∈ l.map Prod.fst := by
  induction l with
  | nil => exact Or.inl rfl
  | cons p rest ih =>
    obtain ⟨n, b⟩ := p
    by_cases hb : b
    · right
      simp [firstRule, hb]
    · have hb' : b = false := by simpa using hb
      rcases ih with h | h
      · left
        simpa [firstRule, hb'] using h
      · right
        simp only [firstRule, hb', if_neg]
        exact List.mem_cons_of_mem _ (by simpa using h)

/-! ## C1 — priority of "Master Ball" over "Ball Holo" -/

/-- C1 counterexample: the claim quantifies over *every* title whose
normalized text contains both phrases, but a title that additionally matches
an earlier rule is classified by that rule: "Sealed Master Ball Holo" contains
both "Master Ball" and "Ball Holo" yet classifies as "Sealed", not
"Master Ball". -/
theorem masterBall_priority_counterexample :
    containsPhrase "Sealed Master Ball Holo" "Master Ball" = true ∧
    containsPhrase "Sealed Master Ball Holo" "Ball Holo" = true ∧
    classifyTitleGroup "Sealed Master Ball Holo" = "Sealed" ∧
    classifyTitleGroup "Sealed Master Ball Holo" ≠ "Master Ball" := by decide

/-- C1 (amended): for every title matching the Master Ball pattern
(`/\bmaster\s*ball\b/i`), the classifier never returns "Ball Holo" (the
Master Ball rule precedes the Ball Holo rule in the evaluation order), and it
returns exactly "Master Ball" whenever none of the five earlier rules (KFC,
Sealed, TAG TEAM, Trainer/Supporter/Item, OCD) matches; in particular
"Master Ball Holo" classifies as "Master Ball", not "Ball Holo". -/
theorem masterBall_priority (t : String) (hmb : hasMasterBall t = true) :
    classifyTitleGroup t ≠ "Ball Holo" ∧
    (hasKfc t = false → hasSealed t = false → hasTagTeam t = false →
      hasTrainer t = false → hasOcd t = false → classifyTitleGroup t = "Master Ball") := by
  constructor
  · simp only [classifyTitleGroup, classifyRules, firstRule, hmb]
    split_ifs <;> decide
  · intro h1 h2 h3 h4 h5
    simp [classifyTitleGroup, classifyRules, firstRule, hmb, h1, h2, h3, h4, h5]

/-- C1 witness: the amended theorem applied at "Master Ball Holo". -/
theorem masterBall_priority_witness :
    hasMasterBall "Master Ball Holo" = true ∧
    classifyTitleGroup "Master Ball Holo" ≠ "Ball Holo" ∧
    classifyTitleGroup "Master Ball Holo" = "Master Ball" :=
  ⟨by decide, (masterBall_priority "Master Ball Holo" (by decide)).1,
    (masterBall_priority "Master Ball Holo" (by decide)).2 (by decide) (by decide) (by decide)
      (by decide) (by decide)⟩

/-! ## C2 — the lot-extraction round-trip examples -/

/-- C2 counterexample: the claim expects `parseLotCountFromTitle "-3 Lot" = 1`
(non-positive numerals rejected), but the numeral pattern `\d+(?:\.\d{1,2})?`
cannot capture a sign: in "-3 Lot" it matches "3" (the boundary `\b` holds
between `-` and `3`), so the function returns 3. -/
theorem parseLot_examples_counterexample :
    parseLotCountFromTitle "-3 Lot" = 3 ∧ parseLotCountFromTitle "-3 Lot" ≠ 1 := by decide

/-- C2 (amended): the round-trip examples as the code computes them —
`"137 Lot Bundle" ↦ 137`, `"Lot 42" ↦ 42`, `"1.50 Lot" ↦ 150` (decimal-typo
correction), `"plain title, no lot" ↦ 1` (no match), and `"-3 Lot" ↦ 3` (the
minus sign is not part of the matched numeral, so the non-positive guard does
not fire). -/
theorem parseLot_examples :
    parseLotCountFromTitle "137 Lot Bundle" = 137 ∧
    parseLotCountFromTitle "Lot 42" = 42 ∧
    parseLotCountFromTitle "1.50 Lot" = 150 ∧
    parseLotCountFromTitle "plain title, no lot" = 1 ∧
    parseLotCountFromTitle "-3 Lot" = 3 := by decide

/-! ## C3 — the range of `parseLotCountFromTitle` -/

/-- C3 counterexample: the claim asserts the result is always ≥ 1, but for
"0.04 Lot" the matched numeral is "0.04": the typo-corrected value 4 falls
below the accepted band `[10, 5000]`, so the code falls through to
`Math.round(0.04) = 0` and returns 0. -/
theorem parseLot_positive_counterexample :
    parseLotCountFromTitle "0.04 Lot" = 0 ∧ ¬(1 ≤ parseLotCountFromTitle "0.04 Lot") := by decide

/-- C3 (amended): for every title the lot count is a nonnegative integer, it
is 1 when no lot pattern matches, and it can only be 0 when the matched
numeral contains a decimal point and its value is below 1/2 (so that rejected
typo-correction falls through to rounding a value below one half); in every
other case the result is at least 1. -/
theorem parseLot_nonneg (title : String) :
    0 ≤ parseLotCountFromTitle title ∧
    (lotMatchOf title = none → parseLotCountFromTitle title = 1) ∧
    (parseLotCountFromTitle title = 0 →
      ∃ raw, lotMatchOf title = some raw ∧ raw.contains '.' = true ∧
        parseNumeral raw < mkRat 1 2) := by
  rcases hm : lotMatchOf title with _ | raw
  · have he : parseLotCountFromTitle title = 1 := by
      simp [parseLotCountFromTitle, hm]
    exact ⟨he ▸ by decide, fun _ => he, fun h0 => absurd (he ▸ h0) (by decide)⟩
  · have he : parseLotCountFromTitle title =
        (if ¬(parseNumeral raw < dblMax) ∨ parseNumeral raw ≤ 0 then 1
         else if raw.contains '.' = true ∧ parseNumeral raw < 10 then
           (if 10 ≤ jround100 (parseNumeral raw) ∧ jround100 (parseNumeral raw) ≤ 5000 then
             jround100 (parseNumeral raw)
           else jround (parseNumeral raw))
         else jround (parseNumeral raw)) := by
      simp only [parseLotCountFromTitle, hm]
    by_cases hfin : ¬(parseNumeral raw < dblMax) ∨ parseNumeral raw ≤ 0
    · rw [if_pos hfin] at he
      exact ⟨he ▸ by decide, fun hc => Option.noConfusion hc,
        fun h0 => absurd (he ▸ h0) (by decide)⟩
    · rw [if_neg hfin] at he
      push_neg at hfin
      obtain ⟨hlt, hpos⟩ := hfin
      by_cases hdot : raw.contains '.' = true ∧ parseNumeral raw < 10
      · rw [if_pos hdot] at he
        by_cases hrange : 10 ≤ jround100 (parseNumeral raw) ∧
            jround100 (parseNumeral raw) ≤ 5000
        · rw [if_pos hrange] at he
          refine ⟨he ▸ le_trans (by decide) hrange.1, fun hc => Option.noConfusion hc,
            fun h0 => ?_⟩
          rw [he] at h0
          omega
        · rw [if_neg hrange] at he
          refine ⟨he ▸ jround_nonneg _ hpos.le, fun hc => Option.noConfusion hc, fun h0 => ?_⟩
          rw [he] at h0
          refine ⟨raw, rfl, hdot.1, ?_⟩
          have hmk : (mkRat 1 2 : ℚ) = 1 / 2 := by
            rw [Rat.mkRat_eq_div]
            norm_num
          rw [jround_eq] at h0
          have h3 := Int.lt_floor_add_one (parseNumeral raw + 1 / 2)
          rw [h0] at h3
          push_cast at h3
          rw [hmk]
          linarith
      · rw [if_neg hdot] at he
        refine ⟨he ▸ jround_nonneg _ hpos.le, fun hc => Option.noConfusion hc, fun h0 => ?_⟩
        rw [he] at h0
        exfalso
        rcases not_and_or.mp hdot with hnd | hge
        · have hnd' : '.' ∉ raw := by
            have : raw.contains '.' = false := by simpa using hnd
            simpa using this
          have hint := parseNumeral_of_no_dot raw hnd'
          have hk : 0 < digitsVal (raw.takeWhile isDigitC) := by
            by_contra hk0
            have : digitsVal (raw.takeWhile isDigitC) = 0 := by omega
            rw [hint, this] at hpos
            exact absurd hpos (by norm_num)
          have h1n : (1 : ℚ) ≤ parseNumeral raw := by
            rw [hint]
            exact_mod_cast hk
          have := jround_ge_one _ h1n
          omega
        · have h10 : (10 : ℚ) ≤ parseNumeral raw := le_of_not_lt hge
          have := jround_ge_one (parseNumeral raw) (by linarith)
          omega

/-- C3 witness: the amended theorem applied at a no-match title and at the
exceptional decimal title. -/
theorem parseLot_nonneg_witness :
    (0 ≤ parseLotCountFromTitle "xyz" ∧ parseLotCountFromTitle "xyz" = 1) ∧
    (∃ raw, lotMatchOf "0.04 Lot" = some raw ∧ raw.contains '.' = true ∧
      parseNumeral raw < mkRat 1 2) :=
  ⟨⟨(parseLot_nonneg "xyz").1, (parseLot_nonneg "xyz").2.1 (by decide)⟩,
    (parseLot_nonneg "0.04 Lot").2.2 (by decide)⟩

/-! ## C10 — every classifier label is a key of the default cost table -/

/-- C10: for every title, the classifier's label (one of the fifteen rule
names or the fallback "Other") has an entry in `COST_DEFAULTS`, so the
absent-category branch of the category-default lookup is never taken for
classifier output against the untouched default table. -/
theorem classify_label_in_defaults (t : String) :
    (COST_DEFAULTS.lookup (classifyTitleGroup t)).isSome = true := by
  rcases firstRule_mem (classifyRules t) with h | h <;>
    simp only [classifyTitleGroup, classifyRules] at h ⊢
  · rw [h]
    decide
  · simp only [List.map_cons, List.map_nil, List.mem_cons, List.not_mem_nil, or_false] at h
    rcases h with h | h | h | h | h | h | h | h | h | h | h | h | h | h | h <;>
      (rw [h]; decide)

/-! ## C4 — effective unit cost resolution -/

/-- C4: for every record and every pair of cost tables, the effective unit
cost equals the per-record override when one is present and finite; otherwise
it equals the category default of the record's title group; and the category
default is 0 when the category is absent from the table. -/
theorem costPerLot_spec (cm ov : String → Option JsNum) (r : Row) :
    (∀ q : ℚ, ov (rowId r) = some (JsNum.num q) → costPerLotForRow cm ov r = q) ∧
    (jsFinite (ov (rowId r)) = false →
      costPerLotForRow cm ov r = costPerLotOfGroup cm r.titleGroup) ∧
    (cm r.titleGroup = none → costPerLotOfGroup cm r.titleGroup = 0) := by
  refine ⟨fun q hq => ?_, fun hnf => ?_, fun habs => ?_⟩
  · simp [costPerLotForRow, hq, jsFinite, jsValOf]
  · simp [costPerLotForRow, hnf]
  · simp [costPerLotOfGroup, habs, jsFinite]

/-- C4 witness: the three branches at concrete tables and the example
record — override 5 wins; with no override the "Master Ball" default 0.7 is
used; with an empty table the cost is 0. -/
theorem costPerLot_spec_witness :
    costPerLotForRow defaultCostFn allFiveOverride exampleRow = 5 ∧
    costPerLotForRow defaultCostFn noOverrides exampleRow =
      costPerLotOfGroup defaultCostFn exampleRow.titleGroup ∧
    costPerLotOfGroup defaultCostFn exampleRow.titleGroup = mkRat 7 10 ∧
    costPerLotOfGroup emptyCostFn exampleRow.titleGroup = 0 :=
  ⟨(costPerLot_spec defaultCostFn allFiveOverride exampleRow).1 5 rfl,
    (costPerLot_spec defaultCostFn noOverrides exampleRow).2.1 rfl,
    by decide,
    (costPerLot_spec emptyCostFn noOverrides exampleRow).2.2 rfl⟩

/-! ## C5 — profit semantics and the end-to-end example -/

/-- C5: a record with payout 0 has profit 0 whatever the tables and lot count;
a record with positive payout has profit payout − effective-unit-cost × lot
count; and on the end-to-end example (title "100 Lot Master Ball Holo",
payout 500, default cost 0.7 for "Master Ball") the lot count is 100, the
total cost 70, and the profit 430. -/
theorem profit_spec :
    (∀ (cm ov : String → Option JsNum) (r : Row),
      (r.payoutCny = 0 → profitOf cm ov r = 0) ∧
      (0 < r.payoutCny →
        profitOf cm ov r = r.payoutCny - costPerLotForRow cm ov r * (lotCountOf r : ℚ))) ∧
    classifyTitleGroup "100 Lot Master Ball Holo" = "Master Ball" ∧
    lotCountOf exampleRow = 100 ∧
    totalCostOf defaultCostFn noOverrides exampleRow = 70 ∧
    profitOf defaultCostFn noOverrides exampleRow = 430 := by
  have hcpl : costPerLotForRow defaultCostFn noOverrides exampleRow = mkRat 7 10 := by decide
  have hlot : lotCountOf exampleRow = 100 := by decide
  have hcost : totalCostOf defaultCostFn noOverrides exampleRow = 70 := by
    rw [totalCostOf, hcpl, hlot, Rat.mkRat_eq_div]
    norm_num
  refine ⟨fun cm ov r => ⟨fun h0 => ?_, fun hp => ?_⟩, by decide, hlot, hcost, ?_⟩
  · simp [profitOf, h0]
  · simp [profitOf, totalCostOf, hp.ne']
  · have hpz : exampleRow.payoutCny ≠ 0 := by decide
    have hpv : exampleRow.payoutCny = 500 := by decide
    rw [profitOf, if_pos hpz, hcost, hpv]
    norm_num

/-- C5 witness: the zero-payout branch at the "RR Only pack" record and the
positive branch at the end-to-end example record. -/
theorem profit_spec_witness :
    profitOf defaultCostFn noOverrides zeroPayoutRow = 0 ∧
    profitOf defaultCostFn noOverrides exampleRow =
      exampleRow.payoutCny -
        costPerLotForRow defaultCostFn noOverrides exampleRow * (lotCountOf exampleRow : ℚ) :=
  ⟨(profit_spec.1 defaultCostFn noOverrides zeroPayoutRow).1 (by decide),
    (profit_spec.1 defaultCostFn noOverrides exampleRow).2 (by decide)⟩

/-! ## C6 — independence of the two date windows -/

/-- C6: for every record set, cost tables, and filter state, the GMV aggregate
(summed over the paid-window rows) is unchanged by any modification of the
payout-date range, and the payout and profit aggregates (summed over the
payout-window rows) are unchanged by any modification of the paid-date
range. -/
theorem kpi_window_independence (rows : List Row) (cm ov : String → Option JsNum)
    (f : Filters) (s1 e1 s2 e2 : String) :
    (kpi rows { f with payoutStartYmd := s1, payoutEndYmd := e1 } cm ov).gmvUsd =
      (kpi rows f cm ov).gmvUsd ∧
    (kpi rows { f with paidStartYmd := s2, paidEndYmd := e2 } cm ov).payoutCny =
      (kpi rows f cm ov).payoutCny ∧
    (kpi rows { f with paidStartYmd := s2, paidEndYmd := e2 } cm ov).totalProfit =
      (kpi rows f cm ov).totalProfit :=
  ⟨rfl, rfl, rfl⟩

/-! ## C7 — loading the stored category-cost document -/

/-- C7 counterexample: in src/app/page.tsx the stored document **replaces**
the defaults: loading a stored document holding only "Mix" leaves no entry for
"Master Ball", whose built-in default is 0.7. -/
theorem costMap_merge_counterexample :
    (loadCostMapMain (some [("Mix", 5)])).lookup "Master Ball" = none ∧
    COST_DEFAULTS.lookup "Master Ball" = some (mkRat 7 10) := by decide

/-- A key found in the front list is found in the concatenation. -/
theorem lookup_append_of_some (l1 l2 : List (String × ℚ)) (k : String) (v : ℚ)
    (h : l1.lookup k = some v) : (l1 ++ l2).lookup k = some v := by
  induction l1 with
  | nil => simp [List.lookup] at h
  | cons p rest ih =>
    obtain ⟨k1, v1⟩ := p
    by_cases hk : (k == k1)
    · simpa [List.lookup, hk] using h
    · simp only [List.lookup, hk] at h
      simpa [List.lookup, hk] using ih h

/-- Lookup through the mapped base of an object spread: each base entry keeps
its key, its value replaced by the overlay's when the overlay has the key. -/
theorem lookup_map_keyed (base overlay : List (String × ℚ)) (k : String) :
    (base.map (fun p => (p.1, (overlay.lookup p.1).getD p.2))).lookup k =
      (base.lookup k).map (fun v => (overlay.lookup k).getD v) := by
  induction base with
  | nil => simp [List.lookup]
  | cons p rest ih =>
    obtain ⟨k1, v1⟩ := p
    by_cases hk : (k == k1)
    · have hkk : k = k1 := by simpa using hk
      simp [List.lookup, hk, hkk]
    · simpa [List.lookup, hk] using ih

/-- C7 (amended): the merge-over-defaults behaviour holds for the
src/unnamed/part_000 variant — every default category missing from the stored
document keeps its built-in value — while in src/app/page.tsx the stored
document replaces the map wholesale. -/
theorem costMap_merge (stored : List (String × ℚ)) (k : String) (v : ℚ)
    (hdef : COST_DEFAULTS.lookup k = some v) (habs : stored.lookup k = none) :
    (loadCostMapP0 (some stored)).lookup k = some v ∧
    loadCostMapMain (some stored) = stored := by
  constructor
  · have hmap : ((COST_DEFAULTS.map
        (fun p => (p.1, (stored.lookup p.1).getD p.2))).lookup k) = some v := by
      rw [lookup_map_keyed, hdef]
      simp [habs]
    rw [loadCostMapP0, spreadMerge]
    exact lookup_append_of_some _ _ _ _ hmap
  · rfl

/-- C7 witness: the amended theorem at the stored document `{"Mix": 5}` and
the default category "Master Ball". -/
theorem costMap_merge_witness :
    (loadCostMapP0 (some [("Mix", 5)])).lookup "Master Ball" = some (mkRat 7 10) ∧
    loadCostMapMain (some [("Mix", 5)]) = [("Mix", 5)] :=
  ⟨(costMap_merge [("Mix", 5)] "Master Ball" (mkRat 7 10) (by decide) (by decide)).1,
    (costMap_merge [("Mix", 5)] "Master Ball" (mkRat 7 10) (by decide) (by decide)).2⟩

/-! ## C8 — median and percentile formulas -/

/-- C8 counterexample: the source's `percentile` is not the nearest-rank
percentile: on the sorted two-element list `[1, 2]` with `p = 0.9`, the
nearest-rank percentile (rank `⌈0.9 · 2⌉ = 2`) is 2, but the code indexes
`⌊(2 - 1) · 0.9⌋ = 0` and returns 1. -/
theorem percentile_nearest_rank_counterexample :
    percentileQ [1, 2] (mkRat 9 10) = 1 ∧
    nearestRankPercentile [1, 2] (mkRat 9 10) = 2 ∧
    percentileQ [1, 2] (mkRat 9 10) ≠ nearestRankPercentile [1, 2] (mkRat 9 10) ∧
    (0 : ℚ) ≤ mkRat 9 10 ∧ mkRat 9 10 ≤ 1 ∧ ([1, 2] : List ℚ) ≠ [] := by decide

/-- C8 (amended): for every non-empty list there is an ascending sorted
rearrangement `s` such that the median is the middle element of `s` for odd
length and the mean of the two middle elements for even length (as claimed),
while the percentile is the element of `s` at index
`min (n-1) (max 0 ⌊(n-1)·p⌋)` — a rank-based formula without interpolation,
but not the nearest-rank percentile `s[⌈p·n⌉ - 1]` of the spec's words. -/
theorem median_percentile_spec (arr : List ℚ) (p : ℚ) (h : arr ≠ []) :
    ∃ s : List ℚ, arr.Perm s ∧ s.Sorted (· ≤ ·) ∧
      (Odd s.length → medianQ arr = s.getD (s.length / 2) 0) ∧
      (Even s.length → medianQ arr =
        (s.getD (s.length / 2 - 1) 0 + s.getD (s.length / 2) 0) / 2) ∧
      percentileQ arr p =
        s.getD (min ((s.length : ℤ) - 1)
          (max 0 ⌊(((s.length : ℤ) - 1 : ℤ) : ℚ) * p⌋)).toNat 0 := by
  have hne : arr.isEmpty = false := by simpa [List.isEmpty_iff] using h
  refine ⟨sortNum arr, (List.perm_insertionSort _ _).symm, List.sorted_insertionSort _ _,
    ?_, ?_, ?_⟩
  · intro hodd
    have hlen : (sortNum arr).length % 2 = 1 := Nat.odd_iff.mp hodd
    simp [medianQ, hne, hlen]
  · intro heven
    have hlen : (sortNum arr).length % 2 = 0 := Nat.even_iff.mp heven
    simp [medianQ, hne, hlen]
  · simp only [percentileQ, hne, Bool.false_eq_true, if_false]
    rw [floorMul_eq]

/-- C8 witness: the amended theorem applied to `[1, 3]` (even) and `[1, 2, 3]`
(odd), with the concrete values the formulas produce. -/
theorem median_percentile_spec_witness :
    (∃ s : List ℚ, ([1, 2, mkRat 3 1] : List ℚ).Perm s ∧ s.Sorted (· ≤ ·) ∧
      (Odd s.length → medianQ [1, 2, mkRat 3 1] = s.getD (s.length / 2) 0) ∧
      (Even s.length → medianQ [1, 2, mkRat 3 1] =
        (s.getD (s.length / 2 - 1) 0 + s.getD (s.length / 2) 0) / 2) ∧
      percentileQ [1, 2, mkRat 3 1] (mkRat 1 2) =
        s.getD (min ((s.length : ℤ) - 1)
          (max 0 ⌊(((s.length : ℤ) - 1 : ℤ) : ℚ) * (mkRat 1 2)⌋)).toNat 0) ∧
    medianQ [1, 2, mkRat 3 1] = 2 ∧
    percentileQ [1, 2, mkRat 3 1] (mkRat 1 2) = 2 :=
  ⟨median_percentile_spec [1, 2, mkRat 3 1] (mkRat 1 2) (by decide), by decide, by decide⟩

/-! ## C9 — the numeric cell parser -/

/-- C9 counterexample: the `toNumber` of src/app/page.tsx strips thousands
separators but **not** currency symbols: `"$1,234.5"` becomes `"$1234.5"`,
which `Number` cannot parse, so the result is 0 rather than 1234.5.  The
src/unnamed/part_000 variant, which also strips non-numeric characters, does
resolve it to 1234.5. -/
theorem toNumber_currency_counterexample :
    toNumber (JsCell.str "$1,234.5") = 0 ∧
    toNumber (JsCell.str "$1,234.5") ≠ mkRat 2469 2 ∧
    toNumberP0 (JsCell.str "$1,234.5") = mkRat 2469 2 := by decide

/-- C9 (amended): `toNumber` of src/app/page.tsx never errors — any string
whose comma-stripped trim fails to parse as a finite number resolves to 0, a
successfully parsed string resolves to its value, and `null`/`undefined`
resolve to 0.  Thousands separators are stripped (`"1,234.5" ↦ 1234.5`) but
currency symbols are not (`"$1,234.5" ↦ 0`); only the part_000 variant also
strips currency symbols (`"$1,234.5" ↦ 1234.5`). -/
theorem toNumber_spec (s : String) :
    (jsFiniteNum (jsNumber (stripCommas (jsTrim s))) = none → toNumber (JsCell.str s) = 0) ∧
    (∀ q : ℚ, stripCommas (jsTrim s) ≠ "" →
      jsFiniteNum (jsNumber (stripCommas (jsTrim s))) = some q →
      toNumber (JsCell.str s) = q) ∧
    toNumber JsCell.nullv = 0 ∧ toNumber JsCell.undef = 0 ∧
    toNumber (JsCell.str "1,234.5") = mkRat 2469 2 ∧
    toNumber (JsCell.str "$1,234.5") = 0 ∧
    toNumberP0 (JsCell.str "$1,234.5") = mkRat 2469 2 ∧
    toNumber (JsCell.str "") = 0 ∧
    toNumber (JsCell.str "abc") = 0 := by
  refine ⟨fun hnone => ?_, fun q hne hsome => ?_, rfl, rfl, by decide, by decide, by decide,
    by decide, by decide⟩
  · by_cases he : stripCommas (jsTrim s) = ""
    · simp [toNumber, he]
    · simp [toNumber, he, hnone]
  · simp [toNumber, hne, hsome]

/-- C9 witness: the error path at `"abc"` and the success path at
`"1,234.5"`. -/
theorem toNumber_spec_witness :
    toNumber (JsCell.str "abc") = 0 ∧ toNumber (JsCell.str "1,234.5") = mkRat 2469 2 :=
  ⟨(toNumber_spec "abc").1 (by decide),
    (toNumber_spec "1,234.5").2.1 (mkRat 2469 2) (by decide) (by decide)⟩

